import Mathlib

/-!
Verification development for the libsched keyword model
(`src/devel/libsched/src/sched_types.h`, `src/devel/libsched/src/sched_kw.h`).

The repository ships only the two header files: the enumerations and the
function signatures are taken from the headers, while every function body is
modelled from the specification (doc comments below say which part is
modelled).  Machine integers (`time_t`, `int`) are modelled as `Nat`/`Int`;
time is measured in whole days, matching the specification's statement that
the time unit is days throughout the model.  Fallible C functions (which
abort or return error codes) are modelled with `Except sched_error`.
-/

namespace SchedKw

/-- Enumeration of the two supported time-stepping keywords, from
`sched_types.h` (`sched_time_enum`). -/
inductive sched_time_enum where
  | DATES_TIME
  | TSTEP_TIME
  deriving DecidableEq

/-- Well status enumeration from `sched_types.h` (`well_status_enum`).
The header notes that `AUTO` is only applicable in injector context. -/
inductive well_status_enum where
  | DEFAULT
  | OPEN
  | STOP
  | SHUT
  | AUTO
  deriving DecidableEq

/-- Injector phase enumeration from `sched_types.h` (`sched_phase_enum`). -/
inductive sched_phase_enum where
  | WATER
  | GAS
  | OIL
  deriving DecidableEq

/-- Control-mode enumeration from `sched_types.h` (`well_cm_enum`).  The
header comments mark `RATE`/`BHP`/`THP`/`GRUP` as injector modes,
`ORAT`/`WRAT`/`GRAT`/`LRAT` as producer modes, and `RESV` as the only value
shared between the WCONHIST and WCONINJE vocabularies. -/
inductive well_cm_enum where
  | RESV
  | RATE
  | BHP
  | THP
  | GRUP
  | ORAT
  | WRAT
  | GRAT
  | LRAT
  deriving DecidableEq

/-- Keyword type enumeration from `sched_types.h` (`sched_kw_type_enum`).
`TIME` is marked in the header as having no implemented support. -/
inductive sched_kw_type_enum where
  | NONE
  | WCONHIST
  | DATES
  | COMPDAT
  | TSTEP
  | TIME
  | WELSPECS
  | GRUPTREE
  | INCLUDE
  | UNTYPED
  | WCONINJ
  | WCONINJE
  | WCONINJH
  | WCONPROD
  deriving DecidableEq

/-- Error kinds of the keyword model, from the specification's error handling
design (§7).  The C code signals these by `util_abort`/return codes; the
model returns them through `Except`. -/
inductive sched_error where
  | UnrecognizedKeyword
  | UnsupportedKeyword
  | MalformedRecord
  | InvalidField
  | TypeMismatch
  | UnknownWell
  deriving DecidableEq

/-- Modelled from the spec: the body of `sched_kw_type_name` (declared in
`sched_types.h`, implementation not in `src/`).  Pure forward vocabulary
lookup mapping each keyword-type member to its name string. -/
def sched_kw_type_name : sched_kw_type_enum → String
  | .NONE => "NONE"
  | .WCONHIST => "WCONHIST"
  | .DATES => "DATES"
  | .COMPDAT => "COMPDAT"
  | .TSTEP => "TSTEP"
  | .TIME => "TIME"
  | .WELSPECS => "WELSPECS"
  | .GRUPTREE => "GRUPTREE"
  | .INCLUDE => "INCLUDE"
  | .UNTYPED => "UNTYPED"
  | .WCONINJ => "WCONINJ"
  | .WCONINJE => "WCONINJE"
  | .WCONINJH => "WCONINJH"
  | .WCONPROD => "WCONPROD"

/-- Modelled from the spec: the body of `sched_kw_type_from_string` (declared
in `sched_types.h`, implementation not in `src/`).  Case-sensitive exact
match of a keyword name against the twelve concrete schedule keywords;
every unrecognized name classifies as `UNTYPED`, never an error. -/
def sched_kw_type_from_string (kw_name : String) : sched_kw_type_enum :=
  if kw_name = "WCONHIST" then .WCONHIST
  else if kw_name = "DATES" then .DATES
  else if kw_name = "COMPDAT" then .COMPDAT
  else if kw_name = "TSTEP" then .TSTEP
  else if kw_name = "TIME" then .TIME
  else if kw_name = "WELSPECS" then .WELSPECS
  else if kw_name = "GRUPTREE" then .GRUPTREE
  else if kw_name = "INCLUDE" then .INCLUDE
  else if kw_name = "WCONINJ" then .WCONINJ
  else if kw_name = "WCONINJE" then .WCONINJE
  else if kw_name = "WCONINJH" then .WCONINJH
  else if kw_name = "WCONPROD" then .WCONPROD
  else .UNTYPED

/-- Modelled from the spec: the body of `sched_types_get_status_string`
(declared in `sched_types.h`, implementation not in `src/`). -/
def sched_types_get_status_string : well_status_enum → String
  | .DEFAULT => "DEFAULT"
  | .OPEN => "OPEN"
  | .STOP => "STOP"
  | .SHUT => "SHUT"
  | .AUTO => "AUTO"

/-- Modelled from the spec: the body of `sched_types_get_status_from_string`
(declared in `sched_types.h`, implementation not in `src/`).  Reverse
vocabulary lookup; fails only as "not found". -/
def sched_types_get_status_from_string (st_string : String) : Option well_status_enum :=
  if st_string = "OPEN" then some .OPEN
  else if st_string = "STOP" then some .STOP
  else if st_string = "SHUT" then some .SHUT
  else if st_string = "AUTO" then some .AUTO
  else if st_string = "DEFAULT" then some .DEFAULT
  else none

/-- Modelled from the spec: the body of `sched_phase_type_from_string`
(declared in `sched_types.h`, implementation not in `src/`). -/
def sched_phase_type_from_string (type_string : String) : Option sched_phase_enum :=
  if type_string = "WATER" then some .WATER
  else if type_string = "GAS" then some .GAS
  else if type_string = "OIL" then some .OIL
  else none

/-- Modelled from the spec: the body of `sched_phase_type_string` (declared
in `sched_types.h`, implementation not in `src/`). -/
def sched_phase_type_string : sched_phase_enum → String
  | .WATER => "WATER"
  | .GAS => "GAS"
  | .OIL => "OIL"

/-- Modelled from the spec: the body of `sched_types_get_cm_string`
(declared in `sched_types.h`, implementation not in `src/`). -/
def sched_types_get_cm_string : well_cm_enum → String
  | .RESV => "RESV"
  | .RATE => "RATE"
  | .BHP => "BHP"
  | .THP => "THP"
  | .GRUP => "GRUP"
  | .ORAT => "ORAT"
  | .WRAT => "WRAT"
  | .GRAT => "GRAT"
  | .LRAT => "LRAT"

/-- Modelled from the spec: the body of `sched_types_get_cm_from_string`
(declared in `sched_types.h`, implementation not in `src/`).  The control
mode vocabulary is parameterized by context (`wconhist = true` selects the
WCONHIST/history vocabulary of producer modes, `false` the injection
vocabulary); the header comment on `well_cm_enum` states that only `RESV` is
shared between the two vocabularies. -/
def sched_types_get_cm_from_string (cm_string : String) (wconhist : Bool) : Option well_cm_enum :=
  if wconhist then
    if cm_string = "ORAT" then some .ORAT
    else if cm_string = "WRAT" then some .WRAT
    else if cm_string = "GRAT" then some .GRAT
    else if cm_string = "LRAT" then some .LRAT
    else if cm_string = "RESV" then some .RESV
    else none
  else
    if cm_string = "RATE" then some .RATE
    else if cm_string = "BHP" then some .BHP
    else if cm_string = "THP" then some .THP
    else if cm_string = "GRUP" then some .GRUP
    else if cm_string = "RESV" then some .RESV
    else none

/-- Row of a WELSPECS payload.  Modelled from the spec (§3): well name, group
name, and the remaining location fields kept as raw tokens (the exact column
schema is left open by the spec). -/
structure welspecs_row where
  well : String
  grp : String
  rest : List String
  deriving DecidableEq

/-- Row of a COMPDAT payload.  Modelled from the spec (§3): well name plus the
completion location/property fields kept as raw tokens. -/
structure compdat_row where
  well : String
  rest : List String
  deriving DecidableEq

/-- Row of a GRUPTREE payload.  Modelled from the spec (§3): child name and
parent group name. -/
structure gruptree_row where
  child : String
  parent : String
  deriving DecidableEq

/-- Row of the well-status-bearing payloads (WCONHIST / WCONINJ / WCONINJE /
WCONINJH / WCONPROD).  Modelled from the spec (§3): well name, status,
context-dependent control mode, injector phase where the variant has one,
and the rate field used by the AUTO open-check (`double` in the C code,
modelled as `Rat`). -/
structure well_row where
  well : String
  status : well_status_enum
  cm : Option well_cm_enum
  phase : Option sched_phase_enum
  rate : Rat
  deriving DecidableEq

/-- Payload variants, one per keyword type that carries data.  Modelled from
the spec (§3); the C code stores these behind a `void *` selected by the type
tag.  `DATES` timestamps and `TSTEP` deltas are in whole days.
`UNTYPED`/`NONE`/`TIME` tokens are stored verbatim in `raw`. -/
inductive sched_kw_payload where
  | dates (dates : List Nat)
  | tstep (deltas : List Nat)
  | welspecs (rows : List welspecs_row)
  | compdat (rows : List compdat_row)
  | gruptree (rows : List gruptree_row)
  | wconhist (rows : List well_row)
  | wconinj (rows : List well_row)
  | wconinje (rows : List well_row)
  | wconinjh (rows : List well_row)
  | wconprod (rows : List well_row)
  | include_file (path_tokens : List String)
  | raw (tokens : List String)
  deriving DecidableEq

/-- The keyword record (`sched_kw_struct` in `sched_kw.c`, opaque in the
header).  Modelled from the spec (§3): type tag, name, mutable restart index
(unset sentinel modelled by `none`), and the type-specific payload. -/
structure sched_kw where
  kw_type : sched_kw_type_enum
  name : String
  restart_nr : Option Int
  payload : sched_kw_payload
  deriving DecidableEq

/-- The externally supplied fixed-length table (`hash_type *` in the header),
modelled from the spec (§2) as a read-only map from (keyword type, column
index) to an expected field width.  The spec leaves the per-variant column
schemas open (§9), so no column of the model is flagged as fixed-width and
the table is threaded through but not consulted. -/
def FixedLengthTable : Type := sched_kw_type_enum → Nat → Option Nat

/-- The record terminator token (conventionally a single slash, §6). -/
def terminator : String := "/"

/-- Modelled from the spec: Token Cursor line reading (§4.2), the
`sched_util` line helpers are not in `src/`.  Collects the tokens of one
line from the front of the stream up to and including the first terminator
token, skipping purely empty tokens, and reports how many tokens were
consumed.  Returns `none` when end-of-input is reached before a
terminator. -/
def read_line_go : List String → Option (List String × Nat)
  | [] => none
  | t :: rest =>
    if t = terminator then some ([], 1)
    else if t = "" then (read_line_go rest).map (fun p => (p.1, p.2 + 1))
    else (read_line_go rest).map (fun p => (t :: p.1, p.2 + 1))

/-- Modelled from the spec: Token Cursor block reading (§4.2).  Produces the
successive lines of a keyword block, stopping when a line consists solely of
the terminator (the end-of-keyword marker), and reports how many tokens were
consumed, the final terminator included.  `cur` accumulates (reversed) the
tokens of the line being read.  Returns `none` when end-of-input is reached
before the closing terminator line. -/
def read_block_go : List String → List String → Option (List (List String) × Nat)
  | [], _ => none
  | t :: rest, cur =>
    if t = terminator then
      if cur = [] then some ([], 1)
      else (read_block_go rest []).map (fun p => (cur.reverse :: p.1, p.2 + 1))
    else if t = "" then (read_block_go rest cur).map (fun p => (p.1, p.2 + 1))
    else (read_block_go rest (t :: cur)).map (fun p => (p.1, p.2 + 1))

/-- Decimal-digit reading over a character list (code points 48-57). -/
def digits_to_nat (acc : Nat) : List Char → Option Nat
  | [] => some acc
  | c :: cs =>
    if 48 ≤ c.toNat ∧ c.toNat ≤ 57 then digits_to_nat (acc * 10 + (c.toNat - 48)) cs
    else none

/-- Numeric token reading for whole-day fields (TSTEP deltas).  Modelled from
the spec; the column grammar is left open (§9) and no claim depends on
`InvalidField`, so unparseable tokens read permissively as 0. -/
def nat_tok (s : String) : Nat :=
  (digits_to_nat 0 s.toList).getD 0

/-- Decimal token reading for rate fields (`sched_util_atof` is not in
`src/`).  Modelled from the spec; permissive, unparseable tokens read as 0.
The decimal point is code point 46. -/
def dec_num (s : String) : Rat :=
  let cs := s.toList
  let intpart := cs.takeWhile (fun c => c.toNat ≠ 46)
  match cs.dropWhile (fun c => c.toNat ≠ 46) with
  | [] => ((digits_to_nat 0 intpart).getD 0 : Rat)
  | _ :: frac =>
    ((digits_to_nat 0 intpart).getD 0 : Rat) +
      ((digits_to_nat 0 frac).getD 0 : Rat) / ((10 : Rat) ^ frac.length)

/-- Drop the single-quote characters (code point 39) used to quote month
names and well names in the deck format. -/
def unquote (s : String) : String :=
  String.mk (s.toList.filter (fun c => c.toNat ≠ 39))

/-- Month-name table of the deck date format (`util_make_date` is not in
`src/`); unknown names read permissively as month 0. -/
def month_nr (s : String) : Nat :=
  if s = "JAN" then 1 else if s = "FEB" then 2 else if s = "MAR" then 3
  else if s = "APR" then 4 else if s = "MAY" then 5 else if s = "JUN" then 6
  else if s = "JUL" then 7 else if s = "AUG" then 8 else if s = "SEP" then 9
  else if s = "OCT" then 10 else if s = "NOV" then 11 else if s = "DEC" then 12
  else 0

/-- Civil-calendar day number (days since 0000-03-01) of a date, the model's
`time_t` with day granularity. -/
def days_from_civil (y m d : Nat) : Nat :=
  let yy := if m ≤ 2 then y - 1 else y
  let era := yy / 400
  let yoe := yy % 400
  let mp := (m + 9) % 12
  let doy := (153 * mp + 2) / 5 + d - 1
  let doe := yoe * 365 + yoe / 4 - yoe / 100 + doy
  era * 146097 + doe

/-- Modelled from the spec: one DATES line `day month-name year` becomes one
absolute timestamp (§3). -/
def date_from_line (l : List String) : Nat :=
  days_from_civil (nat_tok ((l.drop 2).headD "0"))
    (month_nr (unquote ((l.drop 1).headD "")))
    (nat_tok (l.headD "0"))

/-- Modelled from the spec: a WCONHIST / WCONINJH / WCONPROD line, per the
spec's row shape {well name, status, control mode (history/production
context), rate fields} (§3); missing status defaults to `DEFAULT` and the
control mode has no default (§4.3). -/
def hist_row_from_line (l : List String) : well_row :=
  { well := unquote (l.headD "")
  , status := (sched_types_get_status_from_string ((l.drop 1).headD "")).getD .DEFAULT
  , cm := ((l.drop 2).head?).bind (fun s => sched_types_get_cm_from_string s true)
  , phase := none
  , rate := dec_num ((l.drop 3).headD "0") }

/-- Modelled from the spec: a WCONINJE / WCONINJ line, per the spec's row
shape {well name, injector phase, status, control mode (injection context),
limit fields} (§3). -/
def inje_row_from_line (l : List String) : well_row :=
  { well := unquote (l.headD "")
  , status := (sched_types_get_status_from_string ((l.drop 2).headD "")).getD .DEFAULT
  , cm := ((l.drop 3).head?).bind (fun s => sched_types_get_cm_from_string s false)
  , phase := ((l.drop 1).head?).bind (fun s => sched_phase_type_from_string (unquote s))
  , rate := dec_num ((l.drop 4).headD "0") }

/-- Modelled from the spec: a WELSPECS line {well, group, location fields}
(§3). -/
def welspecs_row_from_line (l : List String) : welspecs_row :=
  { well := unquote (l.headD "")
  , grp := unquote ((l.drop 1).headD "")
  , rest := l.drop 2 }

/-- Modelled from the spec: a COMPDAT line {well, completion fields} (§3). -/
def compdat_row_from_line (l : List String) : compdat_row :=
  { well := unquote (l.headD "")
  , rest := l.drop 1 }

/-- Modelled from the spec: a GRUPTREE line {child, parent}; a missing
parent column defaults to the FIELD group (§3, §4.3). -/
def gruptree_row_from_line (l : List String) : gruptree_row :=
  { child := unquote (l.headD "")
  , parent := unquote ((l.drop 1).headD "FIELD") }

/-- Keyword types whose block is a single terminated line rather than a run
of lines closed by a terminator-only line.  Modelled from the spec's
scenarios (§8): a TSTEP block is its delta line (`["10 5","/"]` parses), and
an INCLUDE block is the single path line. -/
def single_line_kw : sched_kw_type_enum → Bool
  | .TSTEP => true
  | .INCLUDE => true
  | _ => false

/-- Modelled from the spec: payload construction of the multi-line variants
from the cursor's lines; `raw_tokens` are the consumed tokens of the block
(closing terminator excluded) stored verbatim by the `UNTYPED`/`NONE`
fallback (§3, §4.4). -/
def body_payload (kty : sched_kw_type_enum) (lines : List (List String))
    (raw_tokens : List String) : sched_kw_payload :=
  match kty with
  | .DATES => .dates (lines.map date_from_line)
  | .WELSPECS => .welspecs (lines.map welspecs_row_from_line)
  | .COMPDAT => .compdat (lines.map compdat_row_from_line)
  | .GRUPTREE => .gruptree (lines.map gruptree_row_from_line)
  | .WCONHIST => .wconhist (lines.map hist_row_from_line)
  | .WCONINJH => .wconinjh (lines.map hist_row_from_line)
  | .WCONPROD => .wconprod (lines.map hist_row_from_line)
  | .WCONINJE => .wconinje (lines.map inje_row_from_line)
  | .WCONINJ => .wconinj (lines.map inje_row_from_line)
  | _ => .raw raw_tokens

/-- Modelled from the spec: the variant-parser dispatch of
`sched_kw_token_alloc` (§4.3, §4.4), operating on the token suffix that
starts right after the keyword name and returning the payload plus the
number of tokens consumed.  `TIME` fails explicitly with
`UnsupportedKeyword`; a missing terminator fails with `MalformedRecord`. -/
def parse_body (kty : sched_kw_type_enum) (ts : List String)
    (flt : FixedLengthTable) : Except sched_error (sched_kw_payload × Nat) :=
  if kty = .TIME then .error .UnsupportedKeyword
  else if single_line_kw kty then
    match read_line_go ts with
    | none => .error .MalformedRecord
    | some (l, n) =>
      if kty = .TSTEP then .ok (.tstep (l.map nat_tok), n)
      else .ok (.include_file l, n)
  else
    match read_block_go ts [] with
    | none => .error .MalformedRecord
    | some (lines, n) => .ok (body_payload kty lines (ts.take (n - 1)), n)

/-- Modelled from the spec: the body of `sched_kw_token_alloc` (declared in
`sched_kw.h`, implementation not in `src/`).  Reads the keyword name at
`token_index`, classifies it through the vocabulary table (unrecognized
names classify as `UNTYPED`, never an error), dispatches to the matching
variant parser on the tokens after the name, and returns the record together
with the index of the first token after the block (the C code returns it
through the `int * token_index` out-parameter).  The restart index starts at
its unset sentinel. -/
def sched_kw_token_alloc (tokens : List String) (token_index : Nat)
    (flt : FixedLengthTable) : Except sched_error (sched_kw × Nat) :=
  match tokens[token_index]? with
  | none => .error .MalformedRecord
  | some nm =>
    match parse_body (sched_kw_type_from_string nm) (tokens.drop (token_index + 1)) flt with
    | .error e => .error e
    | .ok (p, n) =>
      .ok ({ kw_type := sched_kw_type_from_string nm, name := nm,
             restart_nr := none, payload := p }, token_index + 1 + n)

/-- Accessor `sched_kw_get_type` (declared in `sched_kw.h`). -/
def sched_kw_get_type (kw : sched_kw) : sched_kw_type_enum :=
  kw.kw_type

/-- Accessor `sched_kw_get_name` (declared in `sched_kw.h`). -/
def sched_kw_get_name (kw : sched_kw) : String :=
  kw.name

/-- Accessor `sched_kw_get_type_name` (declared in `sched_kw.h`). -/
def sched_kw_get_type_name (kw : sched_kw) : String :=
  sched_kw_type_name kw.kw_type

/-- Modelled from the spec: the body of `sched_kw_set_restart_nr` (declared
in `sched_kw.h`, implementation not in `src/`).  Mutates the restart tag
with no validation of the value (§4.4); in the model the mutation is the
returned record. -/
def sched_kw_set_restart_nr (kw : sched_kw) (restart_nr : Int) : sched_kw :=
  { kw with restart_nr := some restart_nr }

/-- Modelled from the spec: the body of `sched_kw_alloc_copy` (declared in
`sched_kw.h`, implementation not in `src/`).  A full independent deep copy
of the record, payload included (§3, §5); with value semantics the copy has
exactly the source's observable content. -/
def sched_kw_alloc_copy (kw : sched_kw) : sched_kw :=
  { kw_type := kw.kw_type, name := kw.name,
    restart_nr := kw.restart_nr, payload := kw.payload }

/-- Modelled from the spec: the body of `sched_kw_get_new_time` (declared in
`sched_kw.h`, implementation not in `src/`).  Valid for DATES (returns the
payload's first date, the current time ignored) and TSTEP (returns the
current time plus the sum of the deltas, in days); any other type is a
`TypeMismatch` (§4.5).  A DATES record with an empty payload has no date to
return and is also reported as a mismatch between the query and the
payload. -/
def sched_kw_get_new_time (kw : sched_kw) (curr_time : Nat) : Except sched_error Nat :=
  if kw.kw_type = .DATES then
    match kw.payload with
    | .dates (d :: _) => .ok d
    | _ => .error .TypeMismatch
  else if kw.kw_type = .TSTEP then
    match kw.payload with
    | .tstep deltas => .ok (curr_time + deltas.sum)
    | _ => .error .TypeMismatch
  else .error .TypeMismatch

/-- Modelled from the spec: the body of `sched_kw_split_alloc_DATES`
(declared in `sched_kw.h`, implementation not in `src/`).  Valid only for
DATES: one single-entry DATES record per timestamp, in payload order; the C
code returns the count through the `int *` out-parameter, here it is the
list length.  Any other type is a `TypeMismatch` (§4.5). -/
def sched_kw_split_alloc_DATES (kw : sched_kw) : Except sched_error (List sched_kw) :=
  if kw.kw_type = .DATES then
    match kw.payload with
    | .dates ds => .ok (ds.map (fun d => { kw with payload := .dates [d] }))
    | _ => .error .TypeMismatch
  else .error .TypeMismatch

/-- The keyword types on which `sched_kw_well_open` is defined, and whether
the variant is an injection context where the `AUTO` status is meaningful
(`sched_types.h` documents `AUTO` as injector-only). -/
def injector_context : sched_kw_type_enum → Bool
  | .WCONINJE => true
  | .WCONINJH => true
  | _ => false

/-- Whether a keyword type bears well status rows for `sched_kw_well_open`. -/
def well_status_kw : sched_kw_type_enum → Bool
  | .WCONHIST => true
  | .WCONINJE => true
  | .WCONINJH => true
  | .WCONPROD => true
  | _ => false

/-- Extract the well rows of a well-status-bearing payload. -/
def payload_well_rows : sched_kw_payload → Option (List well_row)
  | .wconhist rows => some rows
  | .wconinje rows => some rows
  | .wconinjh rows => some rows
  | .wconprod rows => some rows
  | _ => none

/-- Last-row-wins lookup of the observation table (§3, §4.5): the row that
decides a well's state is the last row for that well in source order. -/
def well_last_row (rows : List well_row) (well : String) : Option well_row :=
  (rows.filter (fun r => r.well = well)).getLast?

/-- Modelled from the spec: the body of `sched_kw_well_open` (declared in
`sched_kw.h`, implementation not in `src/`).  Valid for the well-status
variants; decides by the well's last row: true iff the status is `OPEN`, or
`AUTO` with a nonzero rate in an injection context (`AUTO` in a
pure-producer context is a `TypeMismatch`); a well absent from the rows is
an `UnknownWell`; any other keyword type is a `TypeMismatch` (§4.5). -/
def sched_kw_well_open (kw : sched_kw) (well : String) : Except sched_error Bool :=
  if well_status_kw kw.kw_type then
    match payload_well_rows kw.payload with
    | none => .error .TypeMismatch
    | some rows =>
      match well_last_row rows well with
      | none => .error .UnknownWell
      | some r =>
        match r.status with
        | .OPEN => .ok true
        | .AUTO =>
          if injector_context kw.kw_type then .ok (r.rate != 0)
          else .error .TypeMismatch
        | _ => .ok false
  else .error .TypeMismatch

/-- A store of live records, modelling the C heap for the ownership claims:
a record handle is an index into the store. -/
abbrev kw_store : Type := List sched_kw

/-- Store-level duplication: `sched_kw_alloc_copy` on the record behind
handle `h` allocates the copy as a fresh record and returns its handle. -/
def store_alloc_copy (st : kw_store) (h : Nat) : Option (kw_store × Nat) :=
  (st[h]?).map (fun kw => (st ++ [sched_kw_alloc_copy kw], st.length))

/-- Store-level `sched_kw_set_restart_nr`: mutate the record behind handle
`h` in place, leaving every other record of the store untouched. -/
def store_set_restart_nr (st : kw_store) (h : Nat) (restart_nr : Int) : kw_store :=
  match st[h]? with
  | some kw => st.set h (sched_kw_set_restart_nr kw restart_nr)
  | none => st

/-- The well-status payload carried by each well-status-bearing keyword
type, used to state the open-check claims uniformly over the four
variants. -/
def well_variant_payload (kty : sched_kw_type_enum) (rows : List well_row) :
    Option sched_kw_payload :=
  match kty with
  | .WCONHIST => some (.wconhist rows)
  | .WCONINJE => some (.wconinje rows)
  | .WCONINJH => some (.wconinjh rows)
  | .WCONPROD => some (.wconprod rows)
  | _ => none

/-- Scan for a line consisting solely of the record terminator, with empty
tokens skipped (§4.2).  `at_boundary` records whether everything seen since
the previous terminator (or the start of the stream) was empty; a terminator
met at such a boundary is the end-of-keyword marker. -/
def has_terminator_line_go : List String → Bool → Bool
  | [], _ => false
  | t :: rest, at_boundary =>
    if t = terminator then at_boundary || has_terminator_line_go rest true
    else if t = "" then has_terminator_line_go rest at_boundary
    else has_terminator_line_go rest false

/-- Whether the stream contains a line consisting solely of the record
terminator — the condition under which a multi-line keyword block is
complete; its absence means end-of-input is reached before a terminator
line is found (§4.2). -/
def has_terminator_line (ts : List String) : Bool :=
  has_terminator_line_go ts true

/-- An empty fixed-length table for concrete runs. -/
def example_flt : FixedLengthTable := fun _ _ => none

/-- Fixture: a W1 row with status OPEN. -/
def w1_open : well_row :=
  { well := "W1", status := .OPEN, cm := some .ORAT, phase := none, rate := 0 }

/-- Fixture: a W1 row with status SHUT. -/
def w1_shut : well_row :=
  { well := "W1", status := .SHUT, cm := some .ORAT, phase := none, rate := 0 }

/-- Fixture: a WCONHIST record whose W1 rows are OPEN then SHUT. -/
def wconhist_w1 : sched_kw :=
  { kw_type := .WCONHIST, name := "WCONHIST", restart_nr := none,
    payload := .wconhist [w1_open, w1_shut] }

/-- Fixture: a GRUPTREE record. -/
def r_example : sched_kw :=
  { kw_type := .GRUPTREE, name := "GRUPTREE", restart_nr := none,
    payload := .gruptree [{ child := "G1", parent := "FIELD" }] }

/-- Fixture: the single-date record parsed from `DATES 1 JAN 2020 / /`. -/
def dates_example : sched_kw :=
  { kw_type := .DATES, name := "DATES", restart_nr := none,
    payload := .dates [days_from_civil 2020 1 1] }

theorem read_line_go_bounds (ts l : List String) (n : Nat)
    (h : read_line_go ts = some (l, n)) :
    0 < n ∧ n ≤ ts.length ∧ ts[n - 1]? = some terminator := by
  induction ts generalizing l n with
  | nil => simp [read_line_go] at h
  | cons t rest ih =>
    by_cases h1 : t = terminator
    · rw [read_line_go, if_pos h1] at h
      simp only [Option.some.injEq, Prod.mk.injEq] at h
      obtain ⟨rfl, rfl⟩ := h
      exact ⟨Nat.one_pos, by simp, by simp [h1]⟩
    · by_cases h2 : t = ""
      · rw [read_line_go, if_neg h1, if_pos h2] at h
        obtain ⟨⟨l0, n0⟩, hrest, heq⟩ := Option.map_eq_some'.mp h
        simp only [Prod.mk.injEq] at heq
        obtain ⟨rfl, rfl⟩ := heq
        obtain ⟨hpos, hle, hterm⟩ := ih l0 n0 hrest
        refine ⟨Nat.succ_pos _, by simp; omega, ?_⟩
        obtain _ | m := n0
        · exact absurd hpos (by omega)
        · simpa using hterm
      · rw [read_line_go, if_neg h1, if_neg h2] at h
        obtain ⟨⟨l0, n0⟩, hrest, heq⟩ := Option.map_eq_some'.mp h
        simp only [Prod.mk.injEq] at heq
        obtain ⟨rfl, rfl⟩ := heq
        obtain ⟨hpos, hle, hterm⟩ := ih l0 n0 hrest
        refine ⟨Nat.succ_pos _, by simp; omega, ?_⟩
        obtain _ | m := n0
        · exact absurd hpos (by omega)
        · simpa using hterm

theorem read_line_go_prefix (ts l : List String) (n : Nat)
    (h : read_line_go ts = some (l, n)) (extra : List String) :
    read_line_go (ts.take n ++ extra) = some (l, n) := by
  induction ts generalizing l n with
  | nil => simp [read_line_go] at h
  | cons t rest ih =>
    by_cases h1 : t = terminator
    · rw [read_line_go, if_pos h1] at h
      simp only [Option.some.injEq, Prod.mk.injEq] at h
      obtain ⟨rfl, rfl⟩ := h
      simp [read_line_go, h1]
    · by_cases h2 : t = ""
      · rw [read_line_go, if_neg h1, if_pos h2] at h
        obtain ⟨⟨l0, n0⟩, hrest, heq⟩ := Option.map_eq_some'.mp h
        simp only [Prod.mk.injEq] at heq
        obtain ⟨rfl, rfl⟩ := heq
        rw [List.take_succ_cons, List.cons_append, read_line_go, if_neg h1, if_pos h2,
          ih l0 n0 hrest]
        rfl
      · rw [read_line_go, if_neg h1, if_neg h2] at h
        obtain ⟨⟨l0, n0⟩, hrest, heq⟩ := Option.map_eq_some'.mp h
        simp only [Prod.mk.injEq] at heq
        obtain ⟨rfl, rfl⟩ := heq
        rw [List.take_succ_cons, List.cons_append, read_line_go, if_neg h1, if_neg h2,
          ih l0 n0 hrest]
        rfl

theorem read_line_go_none (ts : List String) (h : terminator ∉ ts) :
    read_line_go ts = none := by
  induction ts with
  | nil => simp [read_line_go]
  | cons t rest ih =>
    have h1 : t ≠ terminator := fun e => h (e ▸ List.mem_cons_self t rest)
    have h2 : terminator ∉ rest := fun e => h (List.mem_cons_of_mem t e)
    rw [read_line_go, if_neg h1, ih h2]
    by_cases h3 : t = ""
    · rw [if_pos h3]; rfl
    · rw [if_neg h3]; rfl

theorem read_block_go_bounds (ts : List String) (cur : List String)
    (ls : List (List String)) (n : Nat)
    (h : read_block_go ts cur = some (ls, n)) :
    0 < n ∧ n ≤ ts.length ∧ ts[n - 1]? = some terminator := by
  induction ts generalizing cur ls n with
  | nil => simp [read_block_go] at h
  | cons t rest ih =>
    by_cases h1 : t = terminator
    · by_cases hc : cur = []
      · rw [read_block_go, if_pos h1, if_pos hc] at h
        simp only [Option.some.injEq, Prod.mk.injEq] at h
        obtain ⟨rfl, rfl⟩ := h
        exact ⟨Nat.one_pos, by simp, by simp [h1]⟩
      · rw [read_block_go, if_pos h1, if_neg hc] at h
        obtain ⟨⟨ls0, n0⟩, hrest, heq⟩ := Option.map_eq_some'.mp h
        simp only [Prod.mk.injEq] at heq
        obtain ⟨rfl, rfl⟩ := heq
        obtain ⟨hpos, hle, hterm⟩ := ih [] ls0 n0 hrest
        refine ⟨Nat.succ_pos _, by simp; omega, ?_⟩
        obtain _ | m := n0
        · exact absurd hpos (by omega)
        · simpa using hterm
    · by_cases h2 : t = ""
      · rw [read_block_go, if_neg h1, if_pos h2] at h
        obtain ⟨⟨ls0, n0⟩, hrest, heq⟩ := Option.map_eq_some'.mp h
        simp only [Prod.mk.injEq] at heq
        obtain ⟨rfl, rfl⟩ := heq
        obtain ⟨hpos, hle, hterm⟩ := ih cur ls0 n0 hrest
        refine ⟨Nat.succ_pos _, by simp; omega, ?_⟩
        obtain _ | m := n0
        · exact absurd hpos (by omega)
        · simpa using hterm
      · rw [read_block_go, if_neg h1, if_neg h2] at h
        obtain ⟨⟨ls0, n0⟩, hrest, heq⟩ := Option.map_eq_some'.mp h
        simp only [Prod.mk.injEq] at heq
        obtain ⟨rfl, rfl⟩ := heq
        obtain ⟨hpos, hle, hterm⟩ := ih (t :: cur) ls0 n0 hrest
        refine ⟨Nat.succ_pos _, by simp; omega, ?_⟩
        obtain _ | m := n0
        · exact absurd hpos (by omega)
        · simpa using hterm

theorem read_block_go_prefix (ts : List String) (cur : List String)
    (ls : List (List String)) (n : Nat)
    (h : read_block_go ts cur = some (ls, n)) (extra : List String) :
    read_block_go (ts.take n ++ extra) cur = some (ls, n) := by
  induction ts generalizing cur ls n with
  | nil => simp [read_block_go] at h
  | cons t rest ih =>
    by_cases h1 : t = terminator
    · by_cases hc : cur = []
      · rw [read_block_go, if_pos h1, if_pos hc] at h
        simp only [Option.some.injEq, Prod.mk.injEq] at h
        obtain ⟨rfl, rfl⟩ := h
        simp [read_block_go, h1, hc]
      · rw [read_block_go, if_pos h1, if_neg hc] at h
        obtain ⟨⟨ls0, n0⟩, hrest, heq⟩ := Option.map_eq_some'.mp h
        simp only [Prod.mk.injEq] at heq
        obtain ⟨rfl, rfl⟩ := heq
        rw [List.take_succ_cons, List.cons_append, read_block_go, if_pos h1, if_neg hc,
          ih [] ls0 n0 hrest]
        rfl
    · by_cases h2 : t = ""
      · rw [read_block_go, if_neg h1, if_pos h2] at h
        obtain ⟨⟨ls0, n0⟩, hrest, heq⟩ := Option.map_eq_some'.mp h
        simp only [Prod.mk.injEq] at heq
        obtain ⟨rfl, rfl⟩ := heq
        rw [List.take_succ_cons, List.cons_append, read_block_go, if_neg h1, if_pos h2,
          ih cur ls0 n0 hrest]
        rfl
      · rw [read_block_go, if_neg h1, if_neg h2] at h
        obtain ⟨⟨ls0, n0⟩, hrest, heq⟩ := Option.map_eq_some'.mp h
        simp only [Prod.mk.injEq] at heq
        obtain ⟨rfl, rfl⟩ := heq
        rw [List.take_succ_cons, List.cons_append, read_block_go, if_neg h1, if_neg h2,
          ih (t :: cur) ls0 n0 hrest]
        rfl

theorem read_block_go_none (ts : List String) (cur : List String)
    (h : terminator ∉ ts) : read_block_go ts cur = none := by
  induction ts generalizing cur with
  | nil => simp [read_block_go]
  | cons t rest ih =>
    have h1 : t ≠ terminator := fun e => h (e ▸ List.mem_cons_self t rest)
    have h2 : terminator ∉ rest := fun e => h (List.mem_cons_of_mem t e)
    rw [read_block_go, if_neg h1]
    by_cases h3 : t = ""
    · rw [if_pos h3, ih cur h2]; rfl
    · rw [if_neg h3, ih (t :: cur) h2]; rfl

/-- Mapping the consumed-count bump over a cursor result does not change the
produced lines. -/
theorem map_fst_keep {γ : Type} (X : Option (γ × Nat)) :
    (X.map (fun p => (p.1, p.2 + 1))).map Prod.fst = X.map Prod.fst := by
  cases X <;> rfl

/-- Prepending a finished line onto both of two cursor results with equal
lines yields equal lines. -/
theorem map_fst_push {γ : Type} {X Y : Option (List γ × Nat)} (a : γ)
    (h : X.map Prod.fst = Y.map Prod.fst) :
    (X.map (fun p => (a :: p.1, p.2 + 1))).map Prod.fst =
      (Y.map (fun p => (a :: p.1, p.2 + 1))).map Prod.fst := by
  cases X <;> cases Y <;> simp_all

theorem read_block_go_filter (ts : List String) (cur : List String) :
    (read_block_go (ts.filter (fun t => t ≠ "")) cur).map Prod.fst =
      (read_block_go ts cur).map Prod.fst := by
  induction ts generalizing cur with
  | nil => simp [read_block_go]
  | cons t rest ih =>
    by_cases h2 : t = ""
    · have hterm : t ≠ terminator := by simp [h2, terminator]
      rw [List.filter_cons_of_neg (by simp [h2])]
      rw [read_block_go, if_neg hterm, if_pos h2, map_fst_keep]
      exact ih cur
    · rw [List.filter_cons_of_pos (by simp [h2])]
      by_cases h1 : t = terminator
      · by_cases hc : cur = []
        · rw [read_block_go, if_pos h1, if_pos hc, read_block_go, if_pos h1, if_pos hc]
        · rw [read_block_go, if_pos h1, if_neg hc, read_block_go, if_pos h1, if_neg hc]
          exact map_fst_push _ (ih [])
      · rw [read_block_go, if_neg h1, if_neg h2, read_block_go, if_neg h1, if_neg h2,
          map_fst_keep, map_fst_keep]
        exact ih (t :: cur)

theorem read_line_go_filter (ts : List String) :
    (read_line_go (ts.filter (fun t => t ≠ ""))).map Prod.fst =
      (read_line_go ts).map Prod.fst := by
  induction ts with
  | nil => simp [read_line_go]
  | cons t rest ih =>
    by_cases h2 : t = ""
    · have hterm : t ≠ terminator := by simp [h2, terminator]
      rw [List.filter_cons_of_neg (by simp [h2])]
      rw [read_line_go, if_neg hterm, if_pos h2, map_fst_keep]
      exact ih
    · rw [List.filter_cons_of_pos (by simp [h2])]
      by_cases h1 : t = terminator
      · rw [read_line_go, if_pos h1, read_line_go, if_pos h1]
      · rw [read_line_go, if_neg h1, if_neg h2, read_line_go, if_neg h1, if_neg h2]
        exact map_fst_push _ ih

/-- A successful variant parse consumes at least one token, stays inside the
stream, ends on the terminator token, and is insensitive to whatever follows
the consumed tokens. -/
theorem parse_body_ok_facts (kty : sched_kw_type_enum) (ts : List String)
    (flt : FixedLengthTable) (p : sched_kw_payload) (n : Nat)
    (h : parse_body kty ts flt = .ok (p, n)) :
    0 < n ∧ n ≤ ts.length ∧ ts[n - 1]? = some terminator ∧
      ∀ extra, parse_body kty (ts.take n ++ extra) flt = .ok (p, n) := by
  unfold parse_body at h
  by_cases htime : kty = .TIME
  · rw [if_pos htime] at h; simp at h
  rw [if_neg htime] at h
  by_cases hs : single_line_kw kty = true
  · rw [if_pos hs] at h
    cases hr : read_line_go ts with
    | none => rw [hr] at h; simp at h
    | some q =>
      obtain ⟨l, n0⟩ := q
      rw [hr] at h
      obtain ⟨hpos, hle, hterm⟩ := read_line_go_bounds ts l n0 hr
      by_cases ht : kty = .TSTEP
      · simp only [ht, if_true, Except.ok.injEq, Prod.mk.injEq] at h
        obtain ⟨rfl, rfl⟩ := h
        refine ⟨hpos, hle, hterm, fun extra => ?_⟩
        unfold parse_body
        rw [if_neg htime, if_pos hs, read_line_go_prefix ts l n0 hr extra]
        simp [ht]
      · simp only [ht, if_false, Except.ok.injEq, Prod.mk.injEq] at h
        obtain ⟨rfl, rfl⟩ := h
        refine ⟨hpos, hle, hterm, fun extra => ?_⟩
        unfold parse_body
        rw [if_neg htime, if_pos hs, read_line_go_prefix ts l n0 hr extra]
        simp [ht]
  · rw [if_neg hs] at h
    cases hr : read_block_go ts [] with
    | none => rw [hr] at h; simp at h
    | some q =>
      obtain ⟨lines, n0⟩ := q
      rw [hr] at h
      simp only [Except.ok.injEq, Prod.mk.injEq] at h
      obtain ⟨hp, rfl⟩ := h
      obtain ⟨hpos, hle, hterm⟩ := read_block_go_bounds ts [] lines n0 hr
      refine ⟨hpos, hle, hterm, fun extra => ?_⟩
      unfold parse_body
      rw [if_neg htime, if_neg hs, read_block_go_prefix ts [] lines n0 hr extra]
      have htake : (ts.take n0 ++ extra).take (n0 - 1) = ts.take (n0 - 1) := by
        rw [List.take_append_of_le_length (by rw [List.length_take]; omega),
          List.take_take]
        congr 1
        exact min_eq_left (Nat.sub_le _ _)
      simp [htake, hp]

/-- A failing variant parse reports `MalformedRecord`, except for the
unsupported `TIME` type which reports `UnsupportedKeyword`. -/
theorem parse_body_error (kty : sched_kw_type_enum) (ts : List String)
    (flt : FixedLengthTable) (e : sched_error)
    (h : parse_body kty ts flt = .error e) :
    (e = .MalformedRecord ∧ kty ≠ .TIME) ∨ (e = .UnsupportedKeyword ∧ kty = .TIME) := by
  unfold parse_body at h
  by_cases htime : kty = .TIME
  · rw [if_pos htime] at h
    simp only [Except.error.injEq] at h
    exact Or.inr ⟨h.symm, htime⟩
  rw [if_neg htime] at h
  by_cases hs : single_line_kw kty = true
  · rw [if_pos hs] at h
    cases hr : read_line_go ts with
    | none =>
      rw [hr] at h
      simp only [Except.error.injEq] at h
      exact Or.inl ⟨h.symm, htime⟩
    | some q =>
      obtain ⟨l, n0⟩ := q
      rw [hr] at h
      by_cases ht : kty = .TSTEP
      · simp [ht] at h
      · simp [ht] at h
  · rw [if_neg hs] at h
    cases hr : read_block_go ts [] with
    | none =>
      rw [hr] at h
      simp only [Except.error.injEq] at h
      exact Or.inl ⟨h.symm, htime⟩
    | some q =>
      obtain ⟨lines, n0⟩ := q
      rw [hr] at h
      simp at h

/-- A non-`TIME` variant parse of a stream with no terminator left fails with
`MalformedRecord`. -/
theorem parse_body_no_terminator (kty : sched_kw_type_enum) (ts : List String)
    (flt : FixedLengthTable) (htime : kty ≠ .TIME) (h : terminator ∉ ts) :
    parse_body kty ts flt = .error .MalformedRecord := by
  unfold parse_body
  rw [if_neg htime]
  by_cases hs : single_line_kw kty = true
  · rw [if_pos hs, read_line_go_none ts h]
  · rw [if_neg hs, read_block_go_none ts [] h]

/-- Shape of keyword-allocation failures: only `MalformedRecord` and
`UnsupportedKeyword` occur, the latter exactly when the name classified to
`TIME`. -/
theorem sched_kw_token_alloc_error_shape (tokens : List String) (i : Nat)
    (flt : FixedLengthTable) (e : sched_error)
    (h : sched_kw_token_alloc tokens i flt = .error e) :
    e = .MalformedRecord ∨
      (e = .UnsupportedKeyword ∧
        ∃ nm, tokens[i]? = some nm ∧ sched_kw_type_from_string nm = .TIME) := by
  unfold sched_kw_token_alloc at h
  split at h
  · simp only [Except.error.injEq] at h
    exact Or.inl h.symm
  next nm hn =>
    split at h
    next e0 hp =>
      simp only [Except.error.injEq] at h
      rcases parse_body_error _ _ _ _ hp with ⟨rfl, _⟩ | ⟨rfl, htime⟩
      · exact Or.inl h.symm
      · exact Or.inr ⟨h.symm, nm, hn, htime⟩
    next p n hp =>
      simp at h

/-- The allocation result of a successful parse: record fields and next
index in terms of the classified name and the variant parse. -/
theorem sched_kw_token_alloc_ok_shape (tokens : List String) (i : Nat)
    (flt : FixedLengthTable) (kw : sched_kw) (j : Nat)
    (h : sched_kw_token_alloc tokens i flt = .ok (kw, j)) :
    ∃ nm p n, tokens[i]? = some nm ∧
      parse_body (sched_kw_type_from_string nm) (tokens.drop (i + 1)) flt = .ok (p, n) ∧
      kw = { kw_type := sched_kw_type_from_string nm, name := nm,
             restart_nr := none, payload := p } ∧
      j = i + 1 + n := by
  unfold sched_kw_token_alloc at h
  split at h
  · simp at h
  next nm hn =>
    split at h
    next e0 hp => simp at h
    next p n hp =>
      simp only [Except.ok.injEq, Prod.mk.injEq] at h
      exact ⟨nm, p, n, hn, hp, h.1.symm, h.2.symm⟩

/-- Allocation assembled from its two steps: name lookup and variant
parse. -/
theorem sched_kw_token_alloc_build (tokens : List String) (i : Nat)
    (flt : FixedLengthTable) (nm : String) (p : sched_kw_payload) (n : Nat)
    (hn : tokens[i]? = some nm)
    (hp : parse_body (sched_kw_type_from_string nm) (tokens.drop (i + 1)) flt = .ok (p, n)) :
    sched_kw_token_alloc tokens i flt =
      .ok ({ kw_type := sched_kw_type_from_string nm, name := nm,
             restart_nr := none, payload := p }, i + 1 + n) := by
  unfold sched_kw_token_alloc
  rw [hn]
  simp [hp]

/-- C4: whenever the token stream contains the terminator closing the
keyword block (that is, whenever allocation succeeds), `sched_kw_token_alloc`
consumes exactly the tokens of that block up to and including its
terminator: the returned next-index lies strictly past the keyword name and
inside the stream, the token just before it is the block's terminator (so a
parse resuming at the returned index never re-reads a terminator), and the
outcome is unchanged by arbitrary tokens following the block (so no token
belonging to the next keyword is consumed). -/
theorem sched_kw_token_alloc_consumes_exactly_block
    (tokens : List String) (i : Nat) (flt : FixedLengthTable)
    (kw : sched_kw) (j : Nat)
    (h : sched_kw_token_alloc tokens i flt = .ok (kw, j)) :
    i < j ∧ j ≤ tokens.length ∧ tokens[j - 1]? = some terminator ∧
      ∀ extra, sched_kw_token_alloc (tokens.take j ++ extra) i flt = .ok (kw, j) := by
  obtain ⟨nm, p, n, hn, hp, rfl, rfl⟩ := sched_kw_token_alloc_ok_shape _ _ _ _ _ h
  obtain ⟨hpos, hle, hterm, hpre⟩ := parse_body_ok_facts _ _ _ _ _ hp
  obtain ⟨hi, -⟩ := List.getElem?_eq_some.mp hn
  rw [List.length_drop] at hle
  refine ⟨by omega, by omega, ?_, ?_⟩
  · have harith : i + 1 + n - 1 = (i + 1) + (n - 1) := by omega
    rw [harith, ← List.getElem?_drop]
    exact hterm
  · intro extra
    have hlt : i < (List.take (i + 1 + n) tokens).length := by
      rw [List.length_take]; omega
    have h1 : (tokens.take (i + 1 + n) ++ extra)[i]? = some nm := by
      rw [List.getElem?_append, if_pos hlt, List.getElem?_take,
        if_pos (by omega : i < i + 1 + n)]
      exact hn
    have h2 : (tokens.take (i + 1 + n) ++ extra).drop (i + 1) =
        (tokens.drop (i + 1)).take n ++ extra := by
      rw [List.drop_append_of_le_length (by rw [List.length_take]; omega), List.drop_take]
      congr 2
      omega
    have hp2 : parse_body (sched_kw_type_from_string nm)
        ((tokens.take (i + 1 + n) ++ extra).drop (i + 1)) flt = .ok (p, n) := by
      rw [h2]
      exact hpre extra
    exact sched_kw_token_alloc_build _ _ _ _ _ _ h1 hp2

/-- An UNTYPED parse stores the block's consumed tokens verbatim, closing
terminator excluded. -/
theorem parse_body_UNTYPED (ts : List String) (flt : FixedLengthTable)
    (p : sched_kw_payload) (n : Nat)
    (hp : parse_body .UNTYPED ts flt = .ok (p, n)) :
    p = .raw (ts.take (n - 1)) := by
  unfold parse_body at hp
  rw [if_neg (by decide), if_neg (by decide)] at hp
  cases hr : read_block_go ts [] with
  | none => rw [hr] at hp; simp at hp
  | some q =>
    obtain ⟨lines, n0⟩ := q
    rw [hr] at hp
    simp only [Except.ok.injEq, Prod.mk.injEq] at hp
    obtain ⟨hp1, rfl⟩ := hp
    exact hp1.symm

/-- A successful block read means the stream contains a terminator-only
line; the boundary flag mirrors whether the pending line is empty. -/
theorem read_block_go_some_terminator_line (ts : List String)
    (cur : List String) (ls : List (List String)) (n : Nat)
    (h : read_block_go ts cur = some (ls, n)) :
    has_terminator_line_go ts (decide (cur = [])) = true := by
  induction ts generalizing cur ls n with
  | nil => simp [read_block_go] at h
  | cons t rest ih =>
    by_cases h1 : t = terminator
    · by_cases hc : cur = []
      · rw [has_terminator_line_go, if_pos h1]
        simp [hc]
      · rw [read_block_go, if_pos h1, if_neg hc] at h
        obtain ⟨⟨ls0, n0⟩, hrest, -⟩ := Option.map_eq_some'.mp h
        rw [has_terminator_line_go, if_pos h1]
        have := ih [] ls0 n0 hrest
        simp only [decide_eq_true_eq] at this ⊢
        simp at this
        simp [this]
    · by_cases h2 : t = ""
      · rw [read_block_go, if_neg h1, if_pos h2] at h
        obtain ⟨⟨ls0, n0⟩, hrest, -⟩ := Option.map_eq_some'.mp h
        rw [has_terminator_line_go, if_neg h1, if_pos h2]
        exact ih cur ls0 n0 hrest
      · rw [read_block_go, if_neg h1, if_neg h2] at h
        obtain ⟨⟨ls0, n0⟩, hrest, -⟩ := Option.map_eq_some'.mp h
        rw [has_terminator_line_go, if_neg h1, if_neg h2]
        have := ih (t :: cur) ls0 n0 hrest
        simpa using this

/-- A multi-line variant parse of a stream with no terminator-only line left
fails with `MalformedRecord`. -/
theorem parse_body_no_terminator_line (kty : sched_kw_type_enum)
    (ts : List String) (flt : FixedLengthTable) (htime : kty ≠ .TIME)
    (hs : single_line_kw kty = false)
    (h : has_terminator_line ts = false) :
    parse_body kty ts flt = .error .MalformedRecord := by
  unfold parse_body
  rw [if_neg htime, if_neg (by simp [hs])]
  cases hr : read_block_go ts [] with
  | none => rfl
  | some q =>
    obtain ⟨ls, n⟩ := q
    have hsome := read_block_go_some_terminator_line ts [] ls n hr
    simp only [decide_eq_true_eq] at hsome
    unfold has_terminator_line at h
    simp at hsome
    rw [hsome] at h
    cases h

/-- C5: reaching end-of-input before a line consisting solely of the record
terminator makes allocation fail with `MalformedRecord` rather than produce
a partial record: for every multi-line keyword block this holds whenever the
stream after the name contains no terminator-only line (interior line
terminators included, as in a block truncated after complete lines), and for
every keyword block whenever no terminator token remains at all (the
end-of-input condition of the single-line variants, whose block is one
terminated line); the unsupported `TIME` type is excepted.  Purely empty
lines are tolerated and skipped: dropping all empty tokens changes neither
the lines the cursor yields for a block nor the line it yields for a
single-line variant. -/
theorem sched_kw_token_alloc_malformed_without_terminator :
    (∀ (tokens : List String) (i : Nat) (flt : FixedLengthTable) (nm : String),
      tokens[i]? = some nm → sched_kw_type_from_string nm ≠ .TIME →
      single_line_kw (sched_kw_type_from_string nm) = false →
      has_terminator_line (tokens.drop (i + 1)) = false →
      sched_kw_token_alloc tokens i flt = .error .MalformedRecord) ∧
    (∀ (tokens : List String) (i : Nat) (flt : FixedLengthTable) (nm : String),
      tokens[i]? = some nm → sched_kw_type_from_string nm ≠ .TIME →
      terminator ∉ tokens.drop (i + 1) →
      sched_kw_token_alloc tokens i flt = .error .MalformedRecord) ∧
    (∀ ts : List String,
      (read_block_go (ts.filter (fun t => t ≠ "")) []).map Prod.fst =
        (read_block_go ts []).map Prod.fst) ∧
    (∀ ts : List String,
      (read_line_go (ts.filter (fun t => t ≠ ""))).map Prod.fst =
        (read_line_go ts).map Prod.fst) := by
  refine ⟨?_, ?_, fun ts => read_block_go_filter ts [], read_line_go_filter⟩
  · intro tokens i flt nm hn htime hsingle hterm
    unfold sched_kw_token_alloc
    rw [hn]
    simp [parse_body_no_terminator_line _ _ flt htime hsingle hterm]
  · intro tokens i flt nm hn htime hterm
    unfold sched_kw_token_alloc
    rw [hn]
    simp [parse_body_no_terminator _ _ flt htime hterm]

/-- C8: allocation fails with `UnsupportedKeyword` exactly when the keyword
name classifies to the unsupported `TIME` type; the `TIME` parse fails
explicitly instead of producing an empty payload, and no other keyword type
ever raises `UnsupportedKeyword`. -/
theorem sched_kw_token_alloc_unsupported_iff_TIME
    (tokens : List String) (i : Nat) (flt : FixedLengthTable) (nm : String)
    (hn : tokens[i]? = some nm) :
    sched_kw_token_alloc tokens i flt = .error .UnsupportedKeyword ↔
      sched_kw_type_from_string nm = .TIME := by
  constructor
  · intro h
    rcases sched_kw_token_alloc_error_shape _ _ _ _ h with h1 | ⟨-, nm2, hn2, ht⟩
    · simp at h1
    · rw [hn] at hn2
      simp only [Option.some.injEq] at hn2
      rw [hn2]
      exact ht
  · intro ht
    have hp : parse_body (sched_kw_type_from_string nm) (tokens.drop (i + 1)) flt =
        .error .UnsupportedKeyword := by
      unfold parse_body
      rw [if_pos ht]
    unfold sched_kw_token_alloc
    rw [hn]
    simp [hp]

/-- C1: keyword-name classification is total by construction and never
raises `UnrecognizedKeyword` through allocation; the unknown name `FOOBAR`
classifies to `UNTYPED`; and a record allocated for a name classifying to
`UNTYPED` has type `UNTYPED` with the block's raw remaining tokens stored
verbatim as its payload. -/
theorem sched_kw_classification_never_fails :
    (∀ (tokens : List String) (i : Nat) (flt : FixedLengthTable),
      sched_kw_token_alloc tokens i flt ≠ .error .UnrecognizedKeyword) ∧
    sched_kw_type_from_string "FOOBAR" = .UNTYPED ∧
    (∀ (tokens : List String) (i : Nat) (flt : FixedLengthTable) (nm : String)
      (kw : sched_kw) (j : Nat),
      tokens[i]? = some nm → sched_kw_type_from_string nm = .UNTYPED →
      sched_kw_token_alloc tokens i flt = .ok (kw, j) →
      kw.kw_type = .UNTYPED ∧
      kw.payload = .raw ((tokens.drop (i + 1)).take (j - i - 2))) := by
  refine ⟨?_, by decide, ?_⟩
  · intro tokens i flt h
    rcases sched_kw_token_alloc_error_shape _ _ _ _ h with h1 | ⟨h1, -⟩ <;> simp at h1
  · intro tokens i flt nm kw j hn hu h
    obtain ⟨nm2, p, n, hn2, hp, rfl, rfl⟩ := sched_kw_token_alloc_ok_shape _ _ _ _ _ h
    rw [hn] at hn2
    simp only [Option.some.injEq] at hn2
    subst hn2
    rw [hu] at hp ⊢
    refine ⟨rfl, ?_⟩
    have hraw := parse_body_UNTYPED _ _ _ _ hp
    simp only [hraw]
    have harith : i + 1 + n - i - 2 = n - 1 := by omega
    rw [harith]

/-- C2: `sched_kw_get_new_time` returns the first payload date for DATES
records independently of the current time, the current time plus the sum of
the deltas (in days) for TSTEP records, and `TypeMismatch` for a record of
any other type. -/
theorem sched_kw_get_new_time_spec :
    (∀ (kw : sched_kw) (t d : Nat) (ds : List Nat),
      kw.kw_type = .DATES → kw.payload = .dates (d :: ds) →
      sched_kw_get_new_time kw t = .ok d) ∧
    (∀ (kw : sched_kw) (t : Nat) (ds : List Nat),
      kw.kw_type = .TSTEP → kw.payload = .tstep ds →
      sched_kw_get_new_time kw t = .ok (t + ds.sum)) ∧
    (∀ (kw : sched_kw) (t : Nat),
      kw.kw_type ≠ .DATES → kw.kw_type ≠ .TSTEP →
      sched_kw_get_new_time kw t = .error .TypeMismatch) := by
  refine ⟨?_, ?_, ?_⟩
  · intro kw t d ds hty hpl
    unfold sched_kw_get_new_time
    rw [if_pos hty, hpl]
  · intro kw t ds hty hpl
    unfold sched_kw_get_new_time
    rw [if_neg (by simp [hty]), if_pos hty, hpl]
  · intro kw t h1 h2
    unfold sched_kw_get_new_time
    rw [if_neg h1, if_neg h2]

/-- C6: splitting a DATES record with N timestamps yields exactly N records,
the i-th of type DATES with the single i-th timestamp as payload and usable
by `sched_kw_get_new_time`; any other type is a `TypeMismatch`. -/
theorem sched_kw_split_alloc_DATES_spec :
    (∀ (kw : sched_kw) (ds : List Nat),
      kw.kw_type = .DATES → kw.payload = .dates ds →
      ∃ l, sched_kw_split_alloc_DATES kw = .ok l ∧ l.length = ds.length ∧
        ∀ (i d : Nat), ds[i]? = some d →
          ∃ r, l[i]? = some r ∧ r.kw_type = .DATES ∧ r.payload = .dates [d] ∧
            ∀ t, sched_kw_get_new_time r t = .ok d) ∧
    (∀ kw : sched_kw, kw.kw_type ≠ .DATES →
      sched_kw_split_alloc_DATES kw = .error .TypeMismatch) := by
  constructor
  · intro kw ds hty hpl
    refine ⟨ds.map (fun d => { kw with payload := .dates [d] }), ?_, by simp, ?_⟩
    · unfold sched_kw_split_alloc_DATES
      rw [if_pos hty, hpl]
    · intro i d hd
      refine ⟨{ kw with payload := .dates [d] }, ?_, hty, rfl, ?_⟩
      · rw [List.getElem?_map, hd]
        rfl
      · intro t
        unfold sched_kw_get_new_time
        rw [if_pos hty]
  · intro kw h
    unfold sched_kw_split_alloc_DATES
    rw [if_neg h]

/-- The four well-status variants accept the open-check and expose their
rows. -/
theorem well_variant_payload_facts (kty : sched_kw_type_enum)
    (rows : List well_row) (p : sched_kw_payload)
    (hv : well_variant_payload kty rows = some p) :
    well_status_kw kty = true ∧ payload_well_rows p = some rows := by
  cases kty <;>
    first
      | exact Option.noConfusion hv
      | (simp only [well_variant_payload, Option.some.injEq] at hv
         subst hv
         exact ⟨rfl, rfl⟩)

/-- The open-check on a well-status record reduces to the last-row lookup. -/
theorem sched_kw_well_open_eq (kw : sched_kw) (w : String) (rows : List well_row)
    (h1 : well_status_kw kw.kw_type = true)
    (h2 : payload_well_rows kw.payload = some rows) :
    sched_kw_well_open kw w =
      match well_last_row rows w with
      | none => .error .UnknownWell
      | some r =>
        match r.status with
        | .OPEN => .ok true
        | .AUTO =>
          if injector_context kw.kw_type then .ok (r.rate != 0)
          else .error .TypeMismatch
        | _ => .ok false := by
  unfold sched_kw_well_open
  rw [if_pos h1, h2]

/-- C3: for every record of one of the four well-status variants, the
open-check is decided by the last row for the queried well in source order:
`OPEN` yields true, `SHUT`/`STOP`/`DEFAULT` yield false (so rows OPEN then
SHUT for the same well yield false), `AUTO` yields the nonzero-rate test in
an injection context and `TypeMismatch` in a pure-producer context, and a
well with no row fails with `UnknownWell`; records of any other type fail
with `TypeMismatch`. -/
theorem sched_kw_well_open_spec :
    (∀ (kw : sched_kw) (rows : List well_row) (w : String),
      well_variant_payload kw.kw_type rows = some kw.payload →
      ((well_last_row rows w = none →
          sched_kw_well_open kw w = .error .UnknownWell) ∧
        ∀ r, well_last_row rows w = some r →
          (r.status = .OPEN → sched_kw_well_open kw w = .ok true) ∧
          ((r.status = .SHUT ∨ r.status = .STOP ∨ r.status = .DEFAULT) →
            sched_kw_well_open kw w = .ok false) ∧
          (r.status = .AUTO → injector_context kw.kw_type = true →
            sched_kw_well_open kw w = .ok (r.rate != 0)) ∧
          (r.status = .AUTO → injector_context kw.kw_type = false →
            sched_kw_well_open kw w = .error .TypeMismatch))) ∧
    (∀ (kw : sched_kw) (w : String), well_status_kw kw.kw_type = false →
      sched_kw_well_open kw w = .error .TypeMismatch) := by
  constructor
  · intro kw rows w hv
    obtain ⟨h1, h2⟩ := well_variant_payload_facts _ _ _ hv
    constructor
    · intro hlast
      rw [sched_kw_well_open_eq kw w rows h1 h2]
      simp [hlast]
    · intro r hlast
      refine ⟨?_, ?_, ?_, ?_⟩
      · intro hst
        rw [sched_kw_well_open_eq kw w rows h1 h2]
        simp [hlast, hst]
      · intro hst
        rw [sched_kw_well_open_eq kw w rows h1 h2]
        rcases hst with hst | hst | hst <;> simp [hlast, hst]
      · intro hst hinj
        rw [sched_kw_well_open_eq kw w rows h1 h2]
        simp [hlast, hst, hinj]
      · intro hst hinj
        rw [sched_kw_well_open_eq kw w rows h1 h2]
        simp [hlast, hst, hinj]
  · intro kw w h
    unfold sched_kw_well_open
    rw [if_neg (by simp [h])]

/-- With value semantics the deep copy has exactly the source's observable
content. -/
theorem sched_kw_alloc_copy_eq (kw : sched_kw) : sched_kw_alloc_copy kw = kw := rfl

/-- C7: duplication yields a record with the source's observable content
behind a fresh handle, and mutating the duplicate's restart index leaves the
original record — restart index and payload — untouched while the duplicate
keeps the source's payload, name and type. -/
theorem sched_kw_alloc_copy_independent (st : kw_store) (h : Nat) (r : sched_kw)
    (st2 : kw_store) (j : Nat) (n : Int)
    (hr : st[h]? = some r)
    (hc : store_alloc_copy st h = some (st2, j)) :
    st2[j]? = some r ∧ j ≠ h ∧
      (store_set_restart_nr st2 j n)[h]? = some r ∧
      ∃ r2, (store_set_restart_nr st2 j n)[j]? = some r2 ∧
        r2.restart_nr = some n ∧ r2.payload = r.payload ∧
        r2.kw_type = r.kw_type ∧ r2.name = r.name := by
  unfold store_alloc_copy at hc
  rw [hr] at hc
  simp only [Option.map_some', Option.some.injEq, Prod.mk.injEq] at hc
  obtain ⟨rfl, rfl⟩ := hc
  obtain ⟨hi, -⟩ := List.getElem?_eq_some.mp hr
  have hj2 : (st ++ [sched_kw_alloc_copy r])[st.length]? =
      some (sched_kw_alloc_copy r) := List.getElem?_concat_length st _
  have hset : store_set_restart_nr (st ++ [sched_kw_alloc_copy r]) st.length n =
      (st ++ [sched_kw_alloc_copy r]).set st.length
        (sched_kw_set_restart_nr (sched_kw_alloc_copy r) n) := by
    unfold store_set_restart_nr
    rw [hj2]
  refine ⟨by rw [hj2, sched_kw_alloc_copy_eq], by omega, ?_, ?_⟩
  · rw [hset, List.getElem?_set_ne (by omega), List.getElem?_append, if_pos hi]
    exact hr
  · refine ⟨sched_kw_set_restart_nr (sched_kw_alloc_copy r) n, ?_, rfl, rfl, rfl, rfl⟩
    rw [hset]
    exact List.getElem?_set_eq_of_lt _ (by simp)

/-- C9: the keyword-type vocabulary round-trips: for every keyword type that
is an actual schedule keyword (every member except the `NONE` sentinel,
which names no keyword), looking the type's name back up through the
classification table returns a type with the same name. -/
theorem sched_kw_type_vocabulary_roundtrip (t : sched_kw_type_enum)
    (h : t ≠ .NONE) :
    sched_kw_type_name (sched_kw_type_from_string (sched_kw_type_name t)) =
      sched_kw_type_name t := by
  cases t
  · exact absurd rfl h
  all_goals decide

/-- C10: the history-context control-mode vocabulary is exactly the producer
modes plus `RESV`, the injection-context vocabulary is exactly the injector
modes plus `RESV`, and the two overlap in exactly the string `RESV`. -/
theorem sched_types_cm_vocabulary_contexts (s : String) :
    (((sched_types_get_cm_from_string s true).isSome ∧
      (sched_types_get_cm_from_string s false).isSome) ↔ s = "RESV") ∧
    ((sched_types_get_cm_from_string s true).isSome ↔
      s ∈ ["ORAT", "WRAT", "GRAT", "LRAT", "RESV"]) ∧
    ((sched_types_get_cm_from_string s false).isSome ↔
      s ∈ ["RATE", "BHP", "THP", "GRUP", "RESV"]) := by
  have htrue : (sched_types_get_cm_from_string s true).isSome ↔
      s ∈ (["ORAT", "WRAT", "GRAT", "LRAT", "RESV"] : List String) := by
    unfold sched_types_get_cm_from_string
    rw [if_pos rfl]
    by_cases h1 : s = "ORAT"
    · subst h1; decide
    rw [if_neg h1]
    by_cases h2 : s = "WRAT"
    · subst h2; decide
    rw [if_neg h2]
    by_cases h3 : s = "GRAT"
    · subst h3; decide
    rw [if_neg h3]
    by_cases h4 : s = "LRAT"
    · subst h4; decide
    rw [if_neg h4]
    by_cases h5 : s = "RESV"
    · subst h5; decide
    rw [if_neg h5]
    simp [h1, h2, h3, h4, h5]
  have hfalse : (sched_types_get_cm_from_string s false).isSome ↔
      s ∈ (["RATE", "BHP", "THP", "GRUP", "RESV"] : List String) := by
    unfold sched_types_get_cm_from_string
    rw [if_neg (by simp)]
    by_cases h1 : s = "RATE"
    · subst h1; decide
    rw [if_neg h1]
    by_cases h2 : s = "BHP"
    · subst h2; decide
    rw [if_neg h2]
    by_cases h3 : s = "THP"
    · subst h3; decide
    rw [if_neg h3]
    by_cases h4 : s = "GRUP"
    · subst h4; decide
    rw [if_neg h4]
    by_cases h5 : s = "RESV"
    · subst h5; decide
    rw [if_neg h5]
    simp [h1, h2, h3, h4, h5]
  refine ⟨?_, htrue, hfalse⟩
  rw [htrue, hfalse]
  constructor
  · rintro ⟨ha, hb⟩
    simp only [List.mem_cons, List.not_mem_nil, or_false] at ha hb
    rcases ha with rfl | rfl | rfl | rfl | rfl
    · exact absurd hb (by decide)
    · exact absurd hb (by decide)
    · exact absurd hb (by decide)
    · exact absurd hb (by decide)
    · rfl
  · rintro rfl
    exact ⟨by decide, by decide⟩

/-- Witness for C1 at the unknown keyword `FOOBAR` with block `a /` `/`. -/
theorem sched_kw_classification_never_fails_witness :
    ({ kw_type := .UNTYPED, name := "FOOBAR", restart_nr := none,
       payload := .raw ["a", "/"] } : sched_kw).kw_type = .UNTYPED ∧
    ({ kw_type := .UNTYPED, name := "FOOBAR", restart_nr := none,
       payload := .raw ["a", "/"] } : sched_kw).payload =
      .raw ((["FOOBAR", "a", "/", "/"].drop (0 + 1)).take (4 - 0 - 2)) :=
  sched_kw_classification_never_fails.2.2 ["FOOBAR", "a", "/", "/"] 0 example_flt
    "FOOBAR" _ 4 rfl rfl rfl

/-- Witness for C2: TSTEP deltas 10 and 5 from day 100 give day 115, a DATES
record returns its date whatever the current time, and a GRUPTREE record is
a type mismatch. -/
theorem sched_kw_get_new_time_spec_witness :
    sched_kw_get_new_time
      { kw_type := .TSTEP, name := "TSTEP", restart_nr := none,
        payload := .tstep [10, 5] } 100 = .ok 115 ∧
    sched_kw_get_new_time dates_example 0 = .ok (days_from_civil 2020 1 1) ∧
    sched_kw_get_new_time r_example 100 = .error .TypeMismatch :=
  ⟨sched_kw_get_new_time_spec.2.1 _ 100 [10, 5] rfl rfl,
   sched_kw_get_new_time_spec.1 _ 0 (days_from_civil 2020 1 1) [] rfl rfl,
   sched_kw_get_new_time_spec.2.2 _ 100 (by decide) (by decide)⟩

/-- Witness for C3: W1 rows OPEN then SHUT in one WCONHIST block make the
open-check report the well closed. -/
theorem sched_kw_well_open_spec_witness :
    sched_kw_well_open wconhist_w1 "W1" = .ok false :=
  ((sched_kw_well_open_spec.1 wconhist_w1 [w1_open, w1_shut] "W1" rfl).2
    w1_shut rfl).2.1 (Or.inl rfl)

set_option maxRecDepth 2000 in
/-- Witness for C4: the DATES block of six tokens is consumed exactly, and
appending a following TSTEP keyword changes nothing about the parse. -/
theorem sched_kw_token_alloc_consumes_exactly_block_witness :
    sched_kw_token_alloc
      ((["DATES", "1", "JAN", "2020", "/", "/"] : List String).take 6 ++
        ["TSTEP", "10", "/"]) 0 example_flt = .ok (dates_example, 6) :=
  (sched_kw_token_alloc_consumes_exactly_block
    ["DATES", "1", "JAN", "2020", "/", "/"] 0 example_flt dates_example 6
    rfl).2.2.2 ["TSTEP", "10", "/"]

/-- Witness for C5: a WCONHIST block truncated after one complete line
(interior line terminator present, no terminator-only line) fails with
`MalformedRecord`. -/
theorem sched_kw_token_alloc_malformed_without_terminator_witness :
    sched_kw_token_alloc ["WCONHIST", "W1", "OPEN", "/", "W2"] 0 example_flt =
      .error .MalformedRecord :=
  sched_kw_token_alloc_malformed_without_terminator.1
    ["WCONHIST", "W1", "OPEN", "/", "W2"] 0 example_flt "WCONHIST"
    rfl (by decide) (by decide) (by decide)

/-- Witness for C6: splitting a three-date record. -/
theorem sched_kw_split_alloc_DATES_spec_witness :
    ∃ l, sched_kw_split_alloc_DATES
        { kw_type := .DATES, name := "DATES", restart_nr := none,
          payload := .dates [5, 7, 9] } = .ok l ∧
      l.length = ([5, 7, 9] : List Nat).length ∧
      ∀ (i d : Nat), ([5, 7, 9] : List Nat)[i]? = some d →
        ∃ r, l[i]? = some r ∧ r.kw_type = .DATES ∧ r.payload = .dates [d] ∧
          ∀ t, sched_kw_get_new_time r t = .ok d :=
  sched_kw_split_alloc_DATES_spec.1 _ [5, 7, 9] rfl rfl

/-- Witness for C7: duplicating the record behind handle 0 of a one-record
store and setting the copy's restart index to 7. -/
theorem sched_kw_alloc_copy_independent_witness :
    ([r_example, r_example] : kw_store)[1]? = some r_example ∧ (1 : Nat) ≠ 0 ∧
      (store_set_restart_nr [r_example, r_example] 1 7)[0]? = some r_example ∧
      ∃ r2, (store_set_restart_nr [r_example, r_example] 1 7)[1]? = some r2 ∧
        r2.restart_nr = some 7 ∧ r2.payload = r_example.payload ∧
        r2.kw_type = r_example.kw_type ∧ r2.name = r_example.name :=
  sched_kw_alloc_copy_independent [r_example] 0 r_example [r_example, r_example]
    1 7 rfl rfl

/-- Witness for C8: allocating a TIME keyword fails with
`UnsupportedKeyword`. -/
theorem sched_kw_token_alloc_unsupported_iff_TIME_witness :
    sched_kw_token_alloc ["TIME", "1", "/"] 0 example_flt =
      .error .UnsupportedKeyword :=
  (sched_kw_token_alloc_unsupported_iff_TIME ["TIME", "1", "/"] 0 example_flt
    "TIME" rfl).mpr (by decide)

/-- Witness for C9: the round-trip at WCONHIST. -/
theorem sched_kw_type_vocabulary_roundtrip_witness :
    sched_kw_type_name (sched_kw_type_from_string
      (sched_kw_type_name .WCONHIST)) = sched_kw_type_name .WCONHIST :=
  sched_kw_type_vocabulary_roundtrip .WCONHIST (by decide)

/-- Witness for C10: `RESV` is accepted in both control-mode contexts. -/
theorem sched_types_cm_vocabulary_contexts_witness :
    (sched_types_get_cm_from_string "RESV" true).isSome ∧
      (sched_types_get_cm_from_string "RESV" false).isSome :=
  (sched_types_cm_vocabulary_contexts "RESV").1.mpr rfl

end SchedKw
